import Mathlib

/-
  Verification of the resolution-and-caching core of serverless-dns,
  embedded from src/src/dns-operation/dnsResolver.js.

  Wire bytes are modelled as lists of naturals, instants (Date.now) as a
  natural number of milliseconds passed explicitly, and the decode/encode
  collaborator as a pair of fallible functions supplied as a parameter.
  JavaScript falsiness of a TTL field (0 or undefined) is modelled by
  `Option Nat` where `none` stands for an absent field.
-/

namespace DnsResolverModel

set_option autoImplicit false
set_option linter.unnecessarySeqFocus false

/-- Wire-format DNS message bytes. -/
abbrev Bytes := List Nat

/-- One question of a decoded DNS packet: its name and record type. -/
structure DnsQuestion where
  name : String
  qtype : String
deriving DecidableEq

/-- One answer record of a decoded DNS packet. `ttl = none` models a record
whose ttl field is absent. -/
structure DnsAnswer where
  rtype : String
  ttl : Option Nat
deriving DecidableEq

/-- A decoded DNS packet, as produced by the decoder collaborator. -/
structure DnsPacket where
  id : Nat
  rcode : Nat
  questions : List DnsQuestion
  answers : List DnsAnswer
deriving DecidableEq

/-- 30s cache extra time, the constant ttlGraceSec of dnsResolver.js. -/
def ttlGraceSec : Nat := 30

/-- Local dns cache capacity, the constant dnsCacheSize of dnsResolver.js. -/
def dnsCacheSize : Nat := 10000

/-- Edge cache ttl hint, the constant httpCacheTtl of dnsResolver.js. -/
def httpCacheTtl : Nat := 604800

/-- Modelled from the spec: dnsutil.rcodeNoError (the helper module is not
under src/). True when the response code is the no-error code 0. -/
def rcodeNoError (p : DnsPacket) : Bool :=
  p.rcode == 0

/-- Modelled from the spec: dnsutil.hasAnswers (the helper module is not
under src/). True when the packet has at least one answer. -/
def hasAnswers (p : DnsPacket) : Bool :=
  decide (0 < p.answers.length)

/-- Modelled from the spec: dnsutil.optAnswer (the helper module is not
under src/). True when the answer is the OPT pseudo record. -/
def optAnswer (a : DnsAnswer) : Bool :=
  a.rtype == "OPT"

/-- Modelled from the spec: the minimum valid DNS message size (the fixed
DNS header length in bytes) used by dnsutil.validResponseSize. -/
def minDNSPacketSize : Nat := 12

/-- Modelled from the spec: dnsutil.validResponseSize (the helper module is
not under src/). An answer smaller than the minimum valid DNS message size
is invalid. -/
def validResponseSize (b : Bytes) : Bool :=
  decide (minDNSPacketSize ≤ b.length)

/-- The JavaScript expression `a.ttl || d`: the ttl when it is present and
non-zero, the default otherwise. -/
def ttlOr (a : DnsAnswer) (d : Nat) : Nat :=
  match a.ttl with
  | some t => if t = 0 then d else t
  | none => d

/-- The abnormally high initial ttl `1 << 30` of determineCacheExpiry. -/
def maxTtlSentinel : Nat := 2 ^ 30

/-- determineCacheExpiry of dnsResolver.js: 0 (not cacheable) unless the
response code is no-error and some answer carries a usable ttl; otherwise
now plus max(minttl + grace, grace) seconds, in milliseconds. -/
def determineCacheExpiry (now : Nat) (p : DnsPacket) : Nat :=
  if rcodeNoError p = false then 0
  else if hasAnswers p = false then 0
  else
    let minttl := p.answers.foldl (fun m a => min (ttlOr a m) m) maxTtlSentinel
    if minttl = maxTtlSentinel then 0
    else now + (max (minttl + ttlGraceSec) ttlGraceSec) * 1000

/-- Character-list model of String.prototype.trim: drop whitespace from
both ends. -/
def jsTrim (s : String) : String :=
  ⟨((s.data.dropWhile Char.isWhitespace).reverse.dropWhile Char.isWhitespace).reverse⟩

/-- Character-list model of String.prototype.toLowerCase, mapping each
character to lower case. -/
def jsToLower (s : String) : String :=
  ⟨s.data.map Char.toLower⟩

/-- cacheKey of dnsResolver.js: defined only for single-question packets;
the lower-cased trimmed name joined with the record type by a colon. -/
def cacheKey (p : DnsPacket) : Option String :=
  match p.questions with
  | [q] => some (jsToLower (jsTrim q.name) ++ ":" ++ q.qtype)
  | _ => none

/-- The per-record body of the updateTtl loop: skip OPT pseudo records,
rewrite a differing ttl and report whether the record changed. -/
def rewriteAnswer (outttl : Nat) (a : DnsAnswer) : DnsAnswer × Bool :=
  if optAnswer a then (a, false)
  else if a.ttl = some outttl then (a, false)
  else ({ a with ttl := some outttl }, true)

/-- updateTtl of dnsResolver.js: no-op when the expiry is in the past,
otherwise set every non-OPT answer ttl to max((endTime - now) / 1000,
grace) and report whether any record changed. -/
def updateTtl (now endTime : Nat) (p : DnsPacket) : DnsPacket × Bool :=
  if endTime < now then (p, false)
  else
    let outttl := max ((endTime - now) / 1000) ttlGraceSec
    let rewritten := p.answers.map (rewriteAnswer outttl)
    ({ p with answers := rewritten.map Prod.fst }, rewritten.any Prod.snd)

/-- updateQueryId of dnsResolver.js: no-op for the id-free sentinel 0 and
for an already matching id, otherwise overwrite the packet id. -/
def updateQueryId (p : DnsPacket) (queryId : Nat) : DnsPacket × Bool :=
  if queryId = 0 then (p, false)
  else if queryId = p.id then (p, false)
  else ({ p with id := queryId }, true)

/-- The decode/encode collaborator of dnsResolver.js (DNSParserWrap), both
directions fallible. -/
structure Codec where
  decode : Bytes → Option DnsPacket
  encode : DnsPacket → Option Bytes

/-- The cache response object assembled by makeCacheResponse. -/
structure CacheRes where
  dnsPacket : Bytes
  decodedDnsPacket : DnsPacket
  ttlEndTime : Nat
deriving DecidableEq

/-- The staleness guard of makeCacheResponse: a non-null expiry strictly
before now marks a stale entry. -/
def isStale (now : Nat) : Option Nat → Bool
  | some e => decide (e < now)
  | none => false

/-- makeCacheResponse of dnsResolver.js. Returns none (the cache-miss
value, false in the source) on a stale expiry, a failed decode or a failed
re-encode; otherwise rewrites ttl and query id, re-encoding only when a
rewrite reported a change. A null expiry marks a new cache entrant whose
expiry is computed by determineCacheExpiry. -/
def makeCacheResponse (cx : Codec) (now queryId : Nat) (dnsPacket : Bytes)
    (expiry : Option Nat) : Option CacheRes :=
  if isStale now expiry then none
  else
    match cx.decode dnsPacket with
    | none => none
    | some dp =>
      let e := match expiry with
        | some e => e
        | none => determineCacheExpiry now dp
      let t := updateTtl now e dp
      let q := updateQueryId t.1 queryId
      let reencode := t.2 || q.2
      match (if reencode then cx.encode q.1 else some dnsPacket) with
      | none => none
      | some ub => some ⟨ub, q.1, e⟩

/-- The value stored in the local cache tier: exactly the wire bytes and
the absolute expiry, nothing else. -/
structure LocalEntry where
  dnsPacket : Bytes
  ttlEndTime : Nat
deriving DecidableEq

/-- The local cache tier, modelled as an association list keyed by the
cache key; Put prepends, Get takes the most recent binding. -/
abbrev LocalCacheMap := List (String × LocalEntry)

/-- LocalCache.Put: bind the key to the entry. -/
def localCachePut (c : LocalCacheMap) (k : String) (v : LocalEntry) : LocalCacheMap :=
  (k, v) :: c

/-- LocalCache.Get: the most recent entry bound to the key, if any. -/
def localCacheGet (c : LocalCacheMap) (k : String) : Option LocalEntry :=
  (c.find? (fun e => e.1 == k)).map (fun e => e.2)

/-- The metadata attached to an edge-cache value in the x-rethink-metadata
header, built by httpCacheMetadata. -/
structure HttpMetadata where
  ttlEndTime : Nat
  bodyUsed : Bool
  blocklistInfo : String
deriving DecidableEq

/-- A value held by the edge (HTTP) cache tier: body bytes plus the parsed
x-rethink-metadata header. -/
structure HttpCacheEntry where
  metadata : HttpMetadata
  body : Bytes
deriving DecidableEq

/-- The edge cache match collaborator: a lookup from the synthetic cache
url to a stored entry; none models an absent edge tier. -/
abbrev HttpCacheMap := String → Option HttpCacheEntry

/-- A deferred edge-cache put, the unit of work handed to event.waitUntil:
the synthetic url, the body bytes and the metadata header content. It is
scheduled, never awaited by the resolution itself. -/
structure DeferredPut where
  url : String
  body : Bytes
  metadata : HttpMetadata
deriving DecidableEq

/-- httpCacheKey of dnsResolver.js: the request url origin joined with the
cache key by a slash. -/
def httpCacheKey (origin : String) (k : String) : String :=
  origin ++ "/" ++ k

/-- The per-resolution inputs of dnsResolver.js RethinkModule that the
cache logic reads: the decoded request packet, the request url origin and
the blocklist filter getDomainInfo collaborator (already composed with
util.objOf into an opaque string). -/
structure ResolveParam where
  requestDecodedDnsPacket : DnsPacket
  requestUrlOrigin : String
  getDomainInfo : String → String

/-- httpCacheMetadata of dnsResolver.js: defined only for single-question
cached packets (the source throws otherwise, modelled as none); carries
the entry expiry and the blocklist info of the question name. -/
def httpCacheMetadata (c : CacheRes) (getDomainInfo : String → String) :
    Option HttpMetadata :=
  match c.decodedDnsPacket.questions with
  | [q] => some ⟨c.ttlEndTime, true, getDomainInfo q.name⟩
  | _ => none

/-- updateLocalCacheIfNeeded of dnsResolver.js: skip a falsy key, a falsy
response or a zero ttlEndTime; otherwise store exactly the wire bytes and
the ttlEndTime, striking out the decoded packet. -/
def updateLocalCacheIfNeeded (c : LocalCacheMap) (k : Option String)
    (v : Option CacheRes) : LocalCacheMap :=
  match k, v with
  | some ks, some cres =>
    if ks = "" then c
    else if cres.ttlEndTime = 0 then c
    else localCachePut c ks ⟨cres.dnsPacket, cres.ttlEndTime⟩
  | _, _ => c

/-- The member this.httpCacheMetadata that httpCacheHeaders looks up: the
source defines httpCacheMetadata only as a module-level function after the
class body and never attaches it to the class or its prototype (only
resolveDnsUpstream and doh2 are attached), so the member is absent. -/
def thisHttpCacheMetadata :
    Option (CacheRes → (String → String) → Option HttpMetadata) :=
  none

/-- updateHttpCacheIfNeeded of dnsResolver.js: only when the edge tier is
present, the key and response are truthy and the ttlEndTime is non-zero;
then it builds the Response value, whose headers call the member
this.httpCacheMetadata. That member is absent (thisHttpCacheMetadata), so
this call throws before event.waitUntil is reached and no put is ever
scheduled; the error result models the throw, which the safeBox of
resolveRequest later swallows. Were the member present, a single-question
packet would schedule the put ⟨synthetic url, bytes, metadata⟩ and any
other packet would throw from the metadata builder. -/
def updateHttpCacheIfNeeded (httpCachePresent : Bool) (origin : String)
    (getDomainInfo : String → String) (k : Option String)
    (cacheRes : Option CacheRes) : Except String (Option DeferredPut) :=
  if httpCachePresent = false then Except.ok none
  else
    match k, cacheRes with
    | some ks, some cres =>
      if ks = "" then Except.ok none
      else if cres.ttlEndTime = 0 then Except.ok none
      else
        match thisHttpCacheMetadata with
        | none => Except.error "this.httpCacheMetadata is not a function"
        | some f =>
          match f cres getDomainInfo with
          | none => Except.error "cache expects just the one dns question"
          | some md =>
            Except.ok (some ⟨httpCacheKey origin ks, cres.dnsPacket, md⟩)
    | _, _ => Except.ok none

/-- updateCachesIfNeeded of dnsResolver.js: on a truthy response with a
derivable key, write the local tier and then attempt the edge tier write.
The local write happens first, so a throw from updateHttpCacheIfNeeded
(swallowed by the safeBox of resolveRequest) leaves the local write in
place and schedules no put. -/
def updateCachesIfNeeded (cache : LocalCacheMap) (httpCachePresent : Bool)
    (param : ResolveParam) (cacheRes : Option CacheRes) :
    LocalCacheMap × Option DeferredPut :=
  match cacheRes with
  | none => (cache, none)
  | some _ =>
    match cacheKey param.requestDecodedDnsPacket with
    | none => (cache, none)
    | some k =>
      (updateLocalCacheIfNeeded cache (some k) cacheRes,
       match updateHttpCacheIfNeeded httpCachePresent param.requestUrlOrigin
           param.getDomainInfo (some k) cacheRes with
       | Except.ok put => put
       | Except.error _ => none)

/-- resolveFromLocalCache of dnsResolver.js: a Get miss is a cache miss,
a hit is materialized by makeCacheResponse against the stored expiry. -/
def resolveFromLocalCache (cx : Codec) (cache : LocalCacheMap)
    (now queryId : Nat) (key : String) : Option CacheRes :=
  match localCacheGet cache key with
  | none => none
  | some cres => makeCacheResponse cx now queryId cres.dnsPacket (some cres.ttlEndTime)

/-- resolveFromHttpCache of dnsResolver.js: a miss when the edge tier is
absent or has no entry under the synthetic url; a hit is materialized by
makeCacheResponse against the ttlEndTime recovered from the metadata
header. -/
def resolveFromHttpCache (cx : Codec) (httpCache : Option HttpCacheMap)
    (now queryId : Nat) (origin key : String) : Option CacheRes :=
  match httpCache with
  | none => none
  | some hc =>
    match hc (httpCacheKey origin key) with
    | none => none
    | some entry =>
      makeCacheResponse cx now queryId entry.body (some entry.metadata.ttlEndTime)

/-- resolveFromCache of dnsResolver.js: derive the key (no key means no
cache consult), try the local tier, then the edge tier, opportunistically
promoting an edge hit into the local tier. Returns the response together
with the local cache state after the promotion. -/
def resolveFromCache (cx : Codec) (cache : LocalCacheMap)
    (httpCache : Option HttpCacheMap) (now : Nat) (param : ResolveParam) :
    Option CacheRes × LocalCacheMap :=
  match cacheKey param.requestDecodedDnsPacket with
  | none => (none, cache)
  | some key =>
    let qid := param.requestDecodedDnsPacket.id
    match resolveFromLocalCache cx cache now qid key with
    | some r => (some r, cache)
    | none =>
      let hres := resolveFromHttpCache cx httpCache now qid param.requestUrlOrigin key
      (hres, updateLocalCacheIfNeeded cache (some key) hres)

/-- The upstream transport outcome consumed by upstreamQuery: the fetch
Response with its ok flag, status line and body bytes. -/
structure UpstreamResponse where
  ok : Bool
  status : Nat
  statusText : String
  body : Bytes
deriving DecidableEq

/-- upstreamQuery of dnsResolver.js: a null upstream result, a non-ok
status and an undersized body each throw; otherwise the fresh answer is
materialized by makeCacheResponse with a null expiry (the decode failure
inside surfaces as an ok none, made fatal by the caller). -/
def upstreamQuery (cx : Codec) (now : Nat) (param : ResolveParam)
    (upRes : Option UpstreamResponse) : Except String (Option CacheRes) :=
  match upRes with
  | none => Except.error "no upstream result"
  | some up =>
    if up.ok = false then
      Except.error (toString up.status ++ " http err: " ++ up.statusText)
    else if validResponseSize up.body = false then
      Except.error "inadequate response from upstream"
    else
      Except.ok (makeCacheResponse cx now param.requestDecodedDnsPacket.id up.body none)

/-- The value resolveRequest hands back to RethinkModule. -/
structure ResolveResult where
  responseBodyBuffer : Bytes
  responseDecodedDnsPacket : DnsPacket
deriving DecidableEq

/-- The observable outcome of one resolveRequest run: the result or error,
the local cache state afterwards, and the deferred edge-cache put, if any
was scheduled. -/
structure Resolution where
  result : Except String ResolveResult
  dnsResCache : LocalCacheMap
  httpPut : Option DeferredPut

/-- resolveRequest of dnsResolver.js: cache first; on a miss query
upstream and run updateCachesIfNeeded inside a safeBox; a still-missing
response throws. -/
def resolveRequest (cx : Codec) (cache0 : LocalCacheMap)
    (httpCache : Option HttpCacheMap) (now : Nat) (param : ResolveParam)
    (upRes : Option UpstreamResponse) : Resolution :=
  let c := resolveFromCache cx cache0 httpCache now param
  match c.1 with
  | some r => ⟨Except.ok ⟨r.dnsPacket, r.decodedDnsPacket⟩, c.2, none⟩
  | none =>
    match upstreamQuery cx now param upRes with
    | Except.error e => ⟨Except.error e, c.2, none⟩
    | Except.ok ucres =>
      let u := updateCachesIfNeeded c.2 httpCache.isSome param ucres
      match ucres with
      | none => ⟨Except.error "No answer from cache or upstream", u.1, u.2⟩
      | some r => ⟨Except.ok ⟨r.dnsPacket, r.decodedDnsPacket⟩, u.1, u.2⟩

/-- Spec-side view: true when an answer carries a usable (present and
non-zero) ttl. -/
def hasPosTtl (a : DnsAnswer) : Bool :=
  match a.ttl with
  | some t => decide (t ≠ 0)
  | none => false

/-- Spec-side view: the usable (present, non-zero) ttls of a list of
answers, in order. -/
def posTtlsOf (l : List DnsAnswer) : List Nat :=
  l.filterMap (fun a =>
    match a.ttl with
    | some t => if t = 0 then none else some t
    | none => none)

/-- Spec-side view: the usable ttls of the answers of a packet. -/
def posTtls (p : DnsPacket) : List Nat :=
  posTtlsOf p.answers

/-- A sample single question, example.com of record type A. -/
def qW : DnsQuestion := ⟨"example.com", "A"⟩

/-- A sample question list with two entries. -/
def qsTwo : List DnsQuestion := [⟨"a.example", "A"⟩, ⟨"b.example", "A"⟩]

/-- A sample decoded request packet with one question and no answers. -/
def pReq : DnsPacket := ⟨7, 0, [qW], []⟩

/-- A sample decoded answer packet: no-error, one question, one answer of
ttl 300. -/
def pAns : DnsPacket := ⟨7, 0, [qW], [⟨"A", some 300⟩]⟩

/-- A sample no-error packet whose only answer has ttl zero. -/
def pZeroTtl : DnsPacket := ⟨1, 0, [qW], [⟨"A", some 0⟩]⟩

/-- A sample packet with a non-zero response code. -/
def pServFail : DnsPacket := ⟨1, 2, [qW], [⟨"A", some 300⟩]⟩

/-- A sample packet with a mixed-case, padded question name. -/
def pMixedCase : DnsPacket := ⟨3, 0, [⟨"  ExAmple.COM ", "A"⟩], []⟩

/-- A sample packet with two questions. -/
def pTwoQ : DnsPacket := ⟨3, 0, qsTwo, []⟩

/-- A sample packet holding one OPT pseudo record next to an A record. -/
def pWithOpt : DnsPacket := ⟨7, 0, [qW], [⟨"A", some 5⟩, ⟨"OPT", some 0⟩]⟩

/-- A sample no-error packet mixing a zero-ttl answer with a ttl-100
answer. -/
def pMixed : DnsPacket := ⟨1, 0, [qW], [⟨"A", some 0⟩, ⟨"A", some 100⟩]⟩

/-- Sample wire bytes, 20 bytes long, above the minimum message size. -/
def bytesW : Bytes := List.range 20

/-- Sample undersized wire bytes, below the minimum message size. -/
def bytesSmall : Bytes := [0, 1, 2]

/-- A sample codec that decodes everything to the sample answer packet and
encodes everything to the sample bytes. -/
def codecW : Codec := ⟨fun _ => some pAns, fun _ => some bytesW⟩

/-- A sample codec whose decode direction always fails. -/
def codecFail : Codec := ⟨fun _ => none, fun _ => some bytesW⟩

/-- A sample blocklist filter collaborator. -/
def gdiW : String → String := fun _ => "blinfo"

/-- Sample per-resolution inputs built from the sample request packet. -/
def paramW : ResolveParam := ⟨pReq, "o", gdiW⟩

/-- A sample materialized cache response with a non-zero expiry. -/
def cresW : CacheRes := ⟨bytesW, pAns, 335000⟩

/-- A sample materialized cache response with a zero expiry. -/
def cresZero : CacheRes := ⟨bytesW, pAns, 0⟩

/-- A sample local cache holding one entry under key x. -/
def cacheX : LocalCacheMap := [("x", ⟨bytesW, 99999⟩)]

/-- A sample local cache holding a stale entry under the sample key. -/
def cacheStale : LocalCacheMap := [("example.com:A", ⟨bytesW, 50⟩)]

/-- A sample stale edge-cache entry: its metadata expiry is 50. -/
def entryStale : HttpCacheEntry := ⟨⟨50, true, "blinfo"⟩, bytesW⟩

/-- A sample edge cache answering every lookup with the stale entry. -/
def hcmStale : HttpCacheMap := fun _ => some entryStale

/-- A sample ok upstream response with an adequate body. -/
def upOk : UpstreamResponse := ⟨true, 200, "OK", bytesW⟩

/-- A sample ok upstream response with an undersized body. -/
def upSmall : UpstreamResponse := ⟨true, 200, "OK", bytesSmall⟩

/-- The minimum fold of determineCacheExpiry only ever sees the usable
ttls: falsy ttls are replaced by the running minimum, which the min then
keeps unchanged. -/
theorem foldl_ttlOr_eq (l : List DnsAnswer) (s : Nat) :
    l.foldl (fun m a => min (ttlOr a m) m) s =
      (posTtlsOf l).foldl (fun m t => min t m) s := by
  induction l generalizing s with
  | nil => rfl
  | cons a l ih =>
    simp only [List.foldl_cons]
    cases ha : a.ttl with
    | none =>
      have h1 : ttlOr a s = s := by simp [ttlOr, ha]
      have h2 : posTtlsOf (a :: l) = posTtlsOf l := by
        simp [posTtlsOf, List.filterMap_cons, ha]
      rw [h1, min_self, h2]
      exact ih s
    | some t =>
      by_cases ht : t = 0
      · have h1 : ttlOr a s = s := by simp [ttlOr, ha, ht]
        have h2 : posTtlsOf (a :: l) = posTtlsOf l := by
          simp [posTtlsOf, List.filterMap_cons, ha, ht]
        rw [h1, min_self, h2]
        exact ih s
      · have h1 : ttlOr a s = t := by simp [ttlOr, ha, ht]
        have h2 : posTtlsOf (a :: l) = t :: posTtlsOf l := by
          simp [posTtlsOf, List.filterMap_cons, ha, ht]
        rw [h1, h2, List.foldl_cons]
        exact ih (min t s)

/-- Folding min over elements all at least the seed leaves the seed. -/
theorem foldl_min_ge : ∀ (l : List Nat) (s : Nat), (∀ t ∈ l, s ≤ t) →
    l.foldl (fun m t => min t m) s = s
  | [], _, _ => rfl
  | a :: l, s, h => by
    have ha : s ≤ a := h a (by simp)
    rw [List.foldl_cons, min_eq_right ha]
    exact foldl_min_ge l s (fun t ht => h t (by simp [ht]))

/-- Folding min over a list returns a lower bound of the list and the seed
that lies in the list or equals the seed. -/
theorem foldl_min_mem : ∀ (l : List Nat) (s m : Nat), (∀ t ∈ l, m ≤ t) →
    m ≤ s → (m ∈ l ∨ m = s) → l.foldl (fun m t => min t m) s = m
  | [], _, m, _, _, hmem => by
    rcases hmem with h | h
    · simp at h
    · simpa using h.symm
  | a :: l, s, m, hle, hs, hmem => by
    rw [List.foldl_cons]
    apply foldl_min_mem l (min a s) m
      (fun t ht => hle t (by simp [ht]))
      (le_min (hle a (by simp)) hs)
    rcases hmem with hm | hm
    · rcases List.mem_cons.mp hm with hm' | hm'
      · right
        subst hm'
        exact (min_eq_left hs).symm
      · left
        exact hm'
    · right
      rw [hm, min_eq_right (hm ▸ hle a (by simp))]

/-- Keeping only the answers with a usable ttl does not change the usable
ttls. -/
theorem posTtlsOf_filter (l : List DnsAnswer) :
    posTtlsOf (l.filter hasPosTtl) = posTtlsOf l := by
  induction l with
  | nil => rfl
  | cons a l ih =>
    cases ha : a.ttl with
    | none =>
      have hp : hasPosTtl a = false := by simp [hasPosTtl, ha]
      have h2 : posTtlsOf (a :: l) = posTtlsOf l := by
        simp [posTtlsOf, List.filterMap_cons, ha]
      rw [List.filter_cons, hp, h2]
      simpa using ih
    | some t =>
      by_cases ht : t = 0
      · have hp : hasPosTtl a = false := by simp [hasPosTtl, ha, ht]
        have h2 : posTtlsOf (a :: l) = posTtlsOf l := by
          simp [posTtlsOf, List.filterMap_cons, ha, ht]
        rw [List.filter_cons, hp, h2]
        simpa using ih
      · have hp : hasPosTtl a = true := by simp [hasPosTtl, ha, ht]
        have h2 : ∀ rest, posTtlsOf (a :: rest) = t :: posTtlsOf rest := by
          intro rest
          simp [posTtlsOf, List.filterMap_cons, ha, ht]
        rw [List.filter_cons, hp, if_pos rfl, h2, h2, ih]

/-- A list of answers all with falsy ttls has no usable ttls. -/
theorem posTtlsOf_eq_nil : ∀ (l : List DnsAnswer),
    (∀ a ∈ l, hasPosTtl a = false) → posTtlsOf l = []
  | [], _ => rfl
  | a :: l, h => by
    have ha := h a (by simp)
    have hrest := posTtlsOf_eq_nil l (fun b hb => h b (by simp [hb]))
    cases hta : a.ttl with
    | none => simpa [posTtlsOf, List.filterMap_cons, hta] using hrest
    | some t =>
      have ht : t = 0 := by
        simpa [hasPosTtl, hta] using ha
      simpa [posTtlsOf, List.filterMap_cons, hta, ht] using hrest

/-- A packet with a usable ttl among its answers has answers. -/
theorem hasAnswers_of_mem_posTtls (p : DnsPacket) (m : Nat)
    (h : m ∈ posTtls p) : hasAnswers p = true := by
  rcases List.mem_filterMap.mp (by simpa [posTtls, posTtlsOf] using h) with
    ⟨a, ha, _⟩
  simp only [hasAnswers, decide_eq_true_eq]
  exact List.length_pos.mpr (List.ne_nil_of_mem ha)

/-- The record produced by one step of the updateTtl loop. -/
theorem rewriteAnswer_fst (o : Nat) (a : DnsAnswer) :
    (rewriteAnswer o a).1 =
      if optAnswer a = true then a
      else if a.ttl = some o then a
      else { a with ttl := some o } := by
  unfold rewriteAnswer
  cases h1 : optAnswer a <;> by_cases h2 : a.ttl = some o <;> simp [h1, h2]

/-- One step of the updateTtl loop reports a change exactly for a non-OPT
record with a differing ttl. -/
theorem rewriteAnswer_snd (o : Nat) (a : DnsAnswer) :
    (rewriteAnswer o a).2 = true ↔ optAnswer a = false ∧ a.ttl ≠ some o := by
  unfold rewriteAnswer
  cases h1 : optAnswer a <;> by_cases h2 : a.ttl = some o <;> simp [h1, h2]

/-- One step of the updateTtl loop is idempotent and reports no change the
second time. -/
theorem rewriteAnswer_idem (o : Nat) (a : DnsAnswer) :
    rewriteAnswer o (rewriteAnswer o a).1 = ((rewriteAnswer o a).1, false) := by
  unfold rewriteAnswer
  cases h1 : optAnswer a <;> by_cases h2 : a.ttl = some o <;>
    simp [h1, h2, optAnswer] <;> simp_all [optAnswer]

/-- A stale stored expiry makes makeCacheResponse a miss. -/
theorem makeCacheResponse_stale (cx : Codec) (now queryId e : Nat) (b : Bytes)
    (h : e < now) : makeCacheResponse cx now queryId b (some e) = none := by
  unfold makeCacheResponse
  simp [isStale, h]

/-- A decode failure makes makeCacheResponse a miss. -/
theorem makeCacheResponse_decodeFail (cx : Codec) (now queryId : Nat)
    (b : Bytes) (expiry : Option Nat) (h : cx.decode b = none) :
    makeCacheResponse cx now queryId b expiry = none := by
  unfold makeCacheResponse
  cases hs : isStale now expiry <;> simp [hs, h]

/-- A full cache miss leaves the local cache untouched. -/
theorem resolveFromCache_miss_state (cx : Codec) (cache : LocalCacheMap)
    (hc : Option HttpCacheMap) (now : Nat) (param : ResolveParam)
    (h : (resolveFromCache cx cache hc now param).1 = none) :
    (resolveFromCache cx cache hc now param).2 = cache := by
  unfold resolveFromCache at h ⊢
  rcases hk : cacheKey param.requestDecodedDnsPacket with _ | key
  · simp [hk]
  · simp only [hk] at h ⊢
    rcases hl : resolveFromLocalCache cx cache now
        param.requestDecodedDnsPacket.id key with _ | r
    · simp only [hl] at h ⊢
      simp [h, updateLocalCacheIfNeeded]
    · simp [hl] at h

/-- C7: cacheKey returns none exactly when the question count differs from
one; for a single question it returns the lower-cased trimmed name joined
with the record type by a colon, and repeated calls on the same packet
agree. -/
theorem claim7_cacheKey (p : DnsPacket) :
    (cacheKey p = none ↔ p.questions.length ≠ 1) ∧
    (∀ q, p.questions = [q] →
      cacheKey p = some (jsToLower (jsTrim q.name) ++ ":" ++ q.qtype)) ∧
    cacheKey p = cacheKey p := by
  refine ⟨?_, ?_, rfl⟩
  · rcases hq : p.questions with _ | ⟨q, _ | ⟨q2, rest⟩⟩ <;> simp [cacheKey, hq]
  · intro q hq
    simp [cacheKey, hq]

/-- C7 witness: the mixed-case padded one-question packet gets its trimmed
lower-cased key; the two-question packet gets none. -/
theorem claim7_cacheKey_witness :
    cacheKey pMixedCase =
      some (jsToLower (jsTrim "  ExAmple.COM ") ++ ":" ++ "A") ∧
    cacheKey pTwoQ = none := by
  constructor
  · exact (claim7_cacheKey pMixedCase).2.1 ⟨"  ExAmple.COM ", "A"⟩ rfl
  · exact (claim7_cacheKey pTwoQ).1.mpr (by decide)

/-- C1 counterexample: a no-error packet with exactly one answer whose ttl
is zero; the claimed formula predicts now + max(min ttl + grace, grace)
seconds but determineCacheExpiry returns the not-cacheable 0. -/
theorem claim1_expiry_cex :
    rcodeNoError pZeroTtl = true ∧ pZeroTtl.answers.length = 1 ∧
    (∀ a ∈ pZeroTtl.answers, a.ttl = some 0) ∧
    determineCacheExpiry 5000 pZeroTtl = 0 ∧
    determineCacheExpiry 5000 pZeroTtl ≠
      5000 + (max (0 + ttlGraceSec) ttlGraceSec) * 1000 := by
  decide

/-- C1 (amended): with a response code other than no-error or with zero
answers the expiry is the not-cacheable 0; when some answer carries a
usable ttl below the 2 ^ 30 sentinel and m is the least such ttl, the
expiry is now + max(m + grace, grace) seconds in milliseconds; when no
answer carries a usable ttl below the sentinel the expiry is 0. -/
theorem claim1_expiry_amended (now : Nat) (p : DnsPacket) :
    (rcodeNoError p = false → determineCacheExpiry now p = 0) ∧
    (p.answers = [] → determineCacheExpiry now p = 0) ∧
    (∀ m, rcodeNoError p = true → m ∈ posTtls p →
      (∀ t ∈ posTtls p, m ≤ t) → m < maxTtlSentinel →
      determineCacheExpiry now p =
        now + (max (m + ttlGraceSec) ttlGraceSec) * 1000) ∧
    ((∀ t ∈ posTtls p, maxTtlSentinel ≤ t) → determineCacheExpiry now p = 0) := by
  refine ⟨?_, ?_, ?_, ?_⟩
  · intro h
    simp [determineCacheExpiry, h]
  · intro h
    cases hr : rcodeNoError p <;> simp [determineCacheExpiry, hr, hasAnswers, h]
  · intro m hr hm hmin hlt
    have hha := hasAnswers_of_mem_posTtls p m hm
    have hfold : p.answers.foldl (fun m a => min (ttlOr a m) m) maxTtlSentinel
        = m := by
      rw [foldl_ttlOr_eq]
      exact foldl_min_mem (posTtlsOf p.answers) maxTtlSentinel m hmin
        (le_of_lt hlt) (Or.inl hm)
    simp [determineCacheExpiry, hr, hha, hfold, hlt.ne]
  · intro h
    cases hr : rcodeNoError p with
    | false => simp [determineCacheExpiry, hr]
    | true =>
      cases hha : hasAnswers p with
      | false => simp [determineCacheExpiry, hr, hha]
      | true =>
        have hfold : p.answers.foldl (fun m a => min (ttlOr a m) m)
            maxTtlSentinel = maxTtlSentinel := by
          rw [foldl_ttlOr_eq]
          exact foldl_min_ge (posTtlsOf p.answers) maxTtlSentinel h
        simp [determineCacheExpiry, hr, hha, hfold]

/-- C1 (amended) witness: an answer of ttl 300 yields now + 330s; a
serv-fail packet and an all-zero-ttl packet yield 0. -/
theorem claim1_expiry_amended_witness :
    determineCacheExpiry 5000 pAns =
      5000 + (max (300 + ttlGraceSec) ttlGraceSec) * 1000 ∧
    determineCacheExpiry 5000 pServFail = 0 ∧
    determineCacheExpiry 5000 pZeroTtl = 0 := by
  refine ⟨?_, ?_, ?_⟩
  · exact (claim1_expiry_amended 5000 pAns).2.2.1 300 rfl (by decide)
      (by decide) (by decide)
  · exact (claim1_expiry_amended 5000 pServFail).1 rfl
  · exact (claim1_expiry_amended 5000 pZeroTtl).2.2.2 (by decide)

/-- C10: answers with zero or absent ttls are excluded from the minimum
computation of determineCacheExpiry, and a no-error packet whose answers
all have falsy ttls gets the not-cacheable 0. -/
theorem claim10_falsy_ttl_excluded (now : Nat) (p : DnsPacket) :
    (rcodeNoError p = true → hasAnswers p = true →
      determineCacheExpiry now p =
        determineCacheExpiry now
          { p with answers := p.answers.filter hasPosTtl }) ∧
    (rcodeNoError p = true → (∀ a ∈ p.answers, hasPosTtl a = false) →
      determineCacheExpiry now p = 0) := by
  constructor
  · intro hr hha
    have hrf : rcodeNoError { p with answers := p.answers.filter hasPosTtl }
        = rcodeNoError p := rfl
    by_cases hf : p.answers.filter hasPosTtl = []
    · have hpos : posTtlsOf p.answers = [] := by
        rw [← posTtlsOf_filter, hf]
        rfl
      have hhaf : hasAnswers { p with answers := p.answers.filter hasPosTtl }
          = false := by
        simp [hasAnswers, hf]
      have hfold : p.answers.foldl (fun m a => min (ttlOr a m) m)
          maxTtlSentinel = maxTtlSentinel := by
        rw [foldl_ttlOr_eq, hpos]
        rfl
      simp [determineCacheExpiry, hr, hrf, hha, hhaf, hfold]
    · have hhaf : hasAnswers { p with answers := p.answers.filter hasPosTtl }
          = true := by
        simp [hasAnswers, List.length_pos, hf]
      have hfold : (p.answers.filter hasPosTtl).foldl
          (fun m a => min (ttlOr a m) m) maxTtlSentinel =
          p.answers.foldl (fun m a => min (ttlOr a m) m) maxTtlSentinel := by
        rw [foldl_ttlOr_eq, foldl_ttlOr_eq, posTtlsOf_filter]
      simp [determineCacheExpiry, hr, hrf, hha, hhaf, hfold]
  · intro hr hall
    have hpos := posTtlsOf_eq_nil p.answers hall
    cases hha : hasAnswers p with
    | false => simp [determineCacheExpiry, hr, hha]
    | true =>
      have hfold : p.answers.foldl (fun m a => min (ttlOr a m) m)
          maxTtlSentinel = maxTtlSentinel := by
        rw [foldl_ttlOr_eq, hpos]
        rfl
      simp [determineCacheExpiry, hr, hha, hfold]

/-- C10 witness: on the mixed packet the zero-ttl answer is ignored; the
all-zero-ttl packet is not cacheable. -/
theorem claim10_falsy_ttl_excluded_witness :
    determineCacheExpiry 5000 pMixed =
      determineCacheExpiry 5000
        { pMixed with answers := pMixed.answers.filter hasPosTtl } ∧
    determineCacheExpiry 5000 pZeroTtl = 0 := by
  constructor
  · exact (claim10_falsy_ttl_excluded 5000 pMixed).1 rfl rfl
  · exact (claim10_falsy_ttl_excluded 5000 pZeroTtl).2 rfl (by decide)

/-- C8: with an expiry in the past updateTtl leaves the packet unchanged
and reports false; otherwise it rewrites the ttl of every non-OPT answer
to max((endTime - now) / 1000, grace) when it differs, leaves id and
questions alone, and reports true exactly when some record changed. -/
theorem claim8_updateTtl (now endTime : Nat) (p : DnsPacket) :
    (endTime < now → updateTtl now endTime p = (p, false)) ∧
    (now ≤ endTime →
      (updateTtl now endTime p).1.answers =
        p.answers.map (fun a =>
          if optAnswer a = true then a
          else if a.ttl = some (max ((endTime - now) / 1000) ttlGraceSec) then a
          else { a with ttl := some (max ((endTime - now) / 1000) ttlGraceSec) }) ∧
      (updateTtl now endTime p).1.id = p.id ∧
      (updateTtl now endTime p).1.questions = p.questions ∧
      ((updateTtl now endTime p).2 = true ↔
        ∃ a ∈ p.answers, optAnswer a = false ∧
          a.ttl ≠ some (max ((endTime - now) / 1000) ttlGraceSec))) := by
  constructor
  · intro h
    simp [updateTtl, h]
  · intro h
    have hnl : ¬ endTime < now := not_lt.mpr h
    refine ⟨?_, ?_, ?_, ?_⟩
    · simp [updateTtl, hnl, List.map_map, Function.comp, rewriteAnswer_fst]
    · simp [updateTtl, hnl]
    · simp [updateTtl, hnl]
    · simp [updateTtl, hnl, List.any_map, Function.comp, List.any_eq_true,
        rewriteAnswer_snd]

/-- C8 witness: a past expiry is a no-op reporting false; a live expiry
rewrites the A record of the OPT-bearing packet and skips the OPT
record. -/
theorem claim8_updateTtl_witness :
    updateTtl 100 50 pAns = (pAns, false) ∧
    (updateTtl 1000 60000 pWithOpt).1.answers =
      pWithOpt.answers.map (fun a =>
        if optAnswer a = true then a
        else if a.ttl = some (max ((60000 - 1000) / 1000) ttlGraceSec) then a
        else { a with ttl := some (max ((60000 - 1000) / 1000) ttlGraceSec) }) := by
  constructor
  · exact (claim8_updateTtl 100 50 pAns).1 (by decide)
  · exact ((claim8_updateTtl 1000 60000 pWithOpt).2 (by decide)).1

/-- C9: applying updateTtl a second time with the same expiry at the same
now yields the same packet and reports no change. -/
theorem claim9_updateTtl_idem (now endTime : Nat) (p : DnsPacket) :
    (updateTtl now endTime (updateTtl now endTime p).1).1 =
      (updateTtl now endTime p).1 ∧
    (updateTtl now endTime (updateTtl now endTime p).1).2 = false := by
  by_cases h : endTime < now
  · simp [updateTtl, h]
  · constructor
    · simp [updateTtl, h, List.map_map, Function.comp, rewriteAnswer_idem]
    · simp [updateTtl, h, List.map_map, List.any_map, Function.comp,
        rewriteAnswer_idem]

/-- C2 (code bug): contrary to the claim, no edge-cache put is ever
scheduled. The call this.httpCacheMetadata of httpCacheHeaders looks up an
absent member (httpCacheMetadata is a module-level function never attached
to the class), so on every input that passes the guards of
updateHttpCacheIfNeeded the function throws before event.waitUntil:
its result is always either a guard return scheduling nothing or the
member-lookup throw, never a scheduled put; in particular, at an input
satisfying every condition of the claim (edge tier present, non-empty key,
non-zero ttlEndTime, single-question packet) it throws. -/
theorem claim2_http_put_never_scheduled :
    (∀ (present : Bool) (origin : String) (gdi : String → String)
      (k : Option String) (cres : Option CacheRes),
      updateHttpCacheIfNeeded present origin gdi k cres = Except.ok none ∨
      updateHttpCacheIfNeeded present origin gdi k cres =
        Except.error "this.httpCacheMetadata is not a function") ∧
    updateHttpCacheIfNeeded true "o" gdiW (some "k") (some cresW) =
      Except.error "this.httpCacheMetadata is not a function" := by
  constructor
  · intro present origin gdi k cres
    cases present with
    | false => left; rfl
    | true =>
      rcases k with _ | ks
      · rcases cres with _ | c
        · left; rfl
        · left; rfl
      · rcases cres with _ | c
        · left; rfl
        · by_cases h1 : ks = ""
          · left
            simp [updateHttpCacheIfNeeded, h1]
          · by_cases h2 : c.ttlEndTime = 0
            · left
              simp [updateHttpCacheIfNeeded, h1, h2]
            · right
              simp [updateHttpCacheIfNeeded, h1, h2, thisHttpCacheMetadata]
  · rfl

/-- C3: an entry whose stored ttlEndTime is strictly before now is treated
as a miss: makeCacheResponse returns the miss value, both tiers return the
miss value on such a hit, and resolveFromCache falls through to the edge
tier when the local entry is stale. -/
theorem claim3_stale_is_miss (cx : Codec) (now qid e : Nat) (b : Bytes)
    (cache : LocalCacheMap) (hcm : HttpCacheMap) (param : ResolveParam)
    (key : String) (entry : HttpCacheEntry)
    (hstale : e < now) :
    makeCacheResponse cx now qid b (some e) = none ∧
    (localCacheGet cache key = some ⟨b, e⟩ →
      resolveFromLocalCache cx cache now qid key = none) ∧
    (hcm (httpCacheKey param.requestUrlOrigin key) = some entry →
      entry.metadata.ttlEndTime = e →
      resolveFromHttpCache cx (some hcm) now qid param.requestUrlOrigin key
        = none) ∧
    (cacheKey param.requestDecodedDnsPacket = some key →
      localCacheGet cache key = some ⟨b, e⟩ →
      (resolveFromCache cx cache (some hcm) now param).1 =
        resolveFromHttpCache cx (some hcm) now
          param.requestDecodedDnsPacket.id param.requestUrlOrigin key) := by
  have hmk : ∀ (qid2 : Nat) (b2 : Bytes),
      makeCacheResponse cx now qid2 b2 (some e) = none :=
    fun qid2 b2 => makeCacheResponse_stale cx now qid2 e b2 hstale
  refine ⟨hmk qid b, ?_, ?_, ?_⟩
  · intro hget
    simp [resolveFromLocalCache, hget, hmk]
  · intro hhit hmd
    simp [resolveFromHttpCache, hhit, hmd, hmk]
  · intro hkey hget
    have hloc : resolveFromLocalCache cx cache now
        param.requestDecodedDnsPacket.id key = none := by
      simp [resolveFromLocalCache, hget, hmk]
    simp [resolveFromCache, hkey, hloc]

/-- C3 witness: at now 100 an entry stored with expiry 50 is a miss on
both tiers, and the local tier falls through to the edge tier. -/
theorem claim3_stale_is_miss_witness :
    makeCacheResponse codecW 100 7 bytesW (some 50) = none ∧
    resolveFromLocalCache codecW cacheStale 100 7 "example.com:A" = none ∧
    resolveFromHttpCache codecW (some hcmStale) 100 7 "o" "example.com:A"
      = none ∧
    (resolveFromCache codecW cacheStale (some hcmStale) 100 paramW).1 =
      resolveFromHttpCache codecW (some hcmStale) 100 7 "o" "example.com:A" := by
  have h := claim3_stale_is_miss codecW 100 7 50 bytesW cacheStale hcmStale
    paramW "example.com:A" entryStale (by decide)
  exact ⟨h.1, h.2.1 (by decide), h.2.2.1 rfl rfl,
    h.2.2.2 (by decide) (by decide)⟩

/-- C4: neither tier is written for a zero ttlEndTime or a missing key or
response, and a local write stores exactly the wire bytes and the
ttlEndTime. -/
theorem claim4_no_zero_ttl_write (cache : LocalCacheMap) (k : String)
    (v : CacheRes) (present : Bool) (origin : String) (gdi : String → String) :
    (v.ttlEndTime = 0 →
      updateLocalCacheIfNeeded cache (some k) (some v) = cache) ∧
    (v.ttlEndTime = 0 →
      updateHttpCacheIfNeeded present origin gdi (some k) (some v) =
        Except.ok none) ∧
    updateLocalCacheIfNeeded cache none (some v) = cache ∧
    updateLocalCacheIfNeeded cache (some k) none = cache ∧
    updateHttpCacheIfNeeded present origin gdi none (some v) =
      Except.ok none ∧
    updateHttpCacheIfNeeded present origin gdi (some k) none =
      Except.ok none ∧
    (updateLocalCacheIfNeeded cache (some k) (some v) = cache ∨
      updateLocalCacheIfNeeded cache (some k) (some v) =
        localCachePut cache k ⟨v.dnsPacket, v.ttlEndTime⟩) := by
  refine ⟨?_, ?_, rfl, rfl, ?_, ?_, ?_⟩
  · intro h
    simp [updateLocalCacheIfNeeded, h]
  · intro h
    cases present <;> simp [updateHttpCacheIfNeeded, h]
  · cases present <;> simp [updateHttpCacheIfNeeded]
  · cases present <;> simp [updateHttpCacheIfNeeded]
  · by_cases hk : k = ""
    · left
      simp [updateLocalCacheIfNeeded, hk]
    · by_cases ht : v.ttlEndTime = 0
      · left
        simp [updateLocalCacheIfNeeded, hk, ht]
      · right
        simp [updateLocalCacheIfNeeded, hk, ht]

/-- C4 witness: the zero-expiry sample response is written to neither
tier. -/
theorem claim4_no_zero_ttl_write_witness :
    updateLocalCacheIfNeeded cacheX (some "k") (some cresZero) = cacheX ∧
    updateHttpCacheIfNeeded true "o" gdiW (some "k") (some cresZero) =
      Except.ok none := by
  have h := claim4_no_zero_ttl_write cacheX "k" cresZero true "o" gdiW
  exact ⟨h.1 rfl, h.2.1 rfl⟩

/-- C5: a decode failure while materializing a cache entry is a miss
(makeCacheResponse and the local tier return the miss value), while a
decode failure on a fresh upstream answer fails the whole resolution. -/
theorem claim5_decode_failure (cx : Codec) (now : Nat) (param : ResolveParam)
    (cache0 : LocalCacheMap) (hc : Option HttpCacheMap) (b : Bytes)
    (expiry : Option Nat) (up : UpstreamResponse)
    (hdec : cx.decode b = none) (hdecUp : cx.decode up.body = none)
    (hok : up.ok = true) (hsz : validResponseSize up.body = true)
    (hmiss : (resolveFromCache cx cache0 hc now param).1 = none) :
    makeCacheResponse cx now param.requestDecodedDnsPacket.id b expiry
      = none ∧
    (∀ (cache1 : LocalCacheMap) (key : String) (e : Nat),
      localCacheGet cache1 key = some ⟨b, e⟩ →
      resolveFromLocalCache cx cache1 now param.requestDecodedDnsPacket.id key
        = none) ∧
    (resolveRequest cx cache0 hc now param (some up)).result =
      Except.error "No answer from cache or upstream" := by
  refine ⟨makeCacheResponse_decodeFail cx now _ b expiry hdec, ?_, ?_⟩
  · intro cache1 key e hget
    simp [resolveFromLocalCache, hget,
      makeCacheResponse_decodeFail cx now _ b (some e) hdec]
  · have hup : upstreamQuery cx now param (some up) = Except.ok none := by
      simp [upstreamQuery, hok, hsz,
        makeCacheResponse_decodeFail cx now _ up.body none hdecUp]
    simp [resolveRequest, hmiss, hup]

/-- C5 witness: with the always-failing decoder a cached entry is a miss
and an otherwise valid upstream answer fails the resolution. -/
theorem claim5_decode_failure_witness :
    makeCacheResponse codecFail 100 7 bytesW none = none ∧
    resolveFromLocalCache codecFail cacheX 100 7 "x" = none ∧
    (resolveRequest codecFail [] none 100 paramW (some upOk)).result =
      Except.error "No answer from cache or upstream" := by
  have h := claim5_decode_failure codecFail 100 paramW [] none bytesW none
    upOk rfl rfl rfl (by decide) (by decide)
  exact ⟨h.1, h.2.1 cacheX "x" 99999 (by decide), h.2.2⟩

/-- C6: an ok upstream response with a body below the minimum valid DNS
message size fails the resolution with the inadequate-response error, and
neither cache tier is written. -/
theorem claim6_undersized_upstream (cx : Codec) (now : Nat)
    (param : ResolveParam) (cache0 : LocalCacheMap) (hc : Option HttpCacheMap)
    (up : UpstreamResponse)
    (hok : up.ok = true) (hsz : up.body.length < minDNSPacketSize)
    (hmiss : (resolveFromCache cx cache0 hc now param).1 = none) :
    upstreamQuery cx now param (some up) =
      Except.error "inadequate response from upstream" ∧
    resolveRequest cx cache0 hc now param (some up) =
      ⟨Except.error "inadequate response from upstream", cache0, none⟩ := by
  have hbad : validResponseSize up.body = false := by
    simp only [validResponseSize, decide_eq_false_iff_not]
    exact Nat.not_le.mpr hsz
  have hq : upstreamQuery cx now param (some up) =
      Except.error "inadequate response from upstream" := by
    simp [upstreamQuery, hok, hbad]
  refine ⟨hq, ?_⟩
  have hstate := resolveFromCache_miss_state cx cache0 hc now param hmiss
  simp [resolveRequest, hmiss, hq, hstate]

/-- C6 witness: a three-byte upstream body on an empty cache fails the
resolution and leaves the cache empty with no scheduled edge put. -/
theorem claim6_undersized_upstream_witness :
    upstreamQuery codecW 100 paramW (some upSmall) =
      Except.error "inadequate response from upstream" ∧
    resolveRequest codecW [] none 100 paramW (some upSmall) =
      ⟨Except.error "inadequate response from upstream", [], none⟩ :=
  claim6_undersized_upstream codecW 100 paramW [] none upSmall rfl
    (by decide) (by decide)

end DnsResolverModel
